import Mathlib

/-!
Verification of the order-book core of the polymarket-sdk repository.

The Go source (package `orderbook`) is embedded shallowly:

* `shopspring/decimal` values are exact rationals (the library stores an
  arbitrary-precision integer coefficient and a power-of-ten exponent, so
  every value is a rational of the form `c / 10^k`; `Add`, `Sub`, `Mul`
  and comparisons are exact, while `Div` rounds half-away-from-zero to
  `DivisionPrecision = 16` fractional digits, modelled by `decDiv`).
* Go maps keyed by price strings are association lists with
  insert-or-replace (`mapSet`) and delete (`mapDel`); only their
  key-value multiset is ever observed by the code under study.
* `sort.Slice` on the cached ladders is modelled by an insertion sort on
  the parsed prices.  The dirty-cache machinery of the source marks both
  caches dirty on every mutation and rebuilds them before every read, so
  reads are modelled as rebuilding from the maps directly.
* int64 millisecond timestamps are `ℤ` (no arithmetic is performed on
  them beyond comparisons, so wraparound cannot be observed).
-/

namespace Polymarket

/-! ### Decimal strings (shopspring/decimal `NewFromString`)

`NewFromString` accepts an optional sign, an integer digit run and an
optional fractional digit run (the exponent forms `1e5` etc. that the Go
library also accepts are outside the sublanguage used by this feed and
are modelled as parse failures). -/

/-- Value of an ASCII digit (only ever applied to characters that
passed the `isDigit` guard). -/
def digitVal (c : Char) : ℕ :=
  if c = '0' then 0 else if c = '1' then 1 else if c = '2' then 2
  else if c = '3' then 3 else if c = '4' then 4 else if c = '5' then 5
  else if c = '6' then 6 else if c = '7' then 7 else if c = '8' then 8
  else 9

def digitsToNat (l : List Char) : ℕ :=
  l.foldl (fun a c => a * 10 + digitVal c) 0

/-- Split a character list at the first dot. Returns the part before the
dot, the part after it, and whether a dot was present. -/
def breakDot : List Char → List Char × List Char × Bool
  | [] => ([], [], false)
  | c :: cs =>
    if c = '.' then ([], cs, true)
    else
      let (i, f, d) := breakDot cs
      (c :: i, f, d)

def parseUnsignedDec (cs : List Char) : Option ℚ :=
  let (ipart, fpart, _) := breakDot cs
  if (ipart ++ fpart).isEmpty then none
  else if !((ipart ++ fpart).all Char.isDigit) then none
  else some ((digitsToNat (ipart ++ fpart) : ℚ) / (10 : ℚ) ^ fpart.length)

/-- `decimal.NewFromString` on the sign/digits/point sublanguage. -/
def parseDec (s : String) : Option ℚ :=
  match s.toList with
  | [] => none
  | c :: rest =>
    if c = '-' then (parseUnsignedDec rest).map (fun q => -q)
    else if c = '+' then parseUnsignedDec rest
    else parseUnsignedDec (c :: rest)

/-- `NewFromString` returns the zero decimal together with the error;
the ladder rebuild ignores the error, so a malformed key becomes 0. -/
def parseDecOr0 (s : String) : ℚ := (parseDec s).getD 0

/-- Round half away from zero to an integer. -/
def roundHalfAway (x : ℚ) : ℤ :=
  if 0 ≤ x then ⌊x + 1/2⌋ else -⌊-x + 1/2⌋

/-- `decimal.Div`: quotient rounded half-away-from-zero at
`DivisionPrecision = 16` fractional digits. -/
def decDiv (a b : ℚ) : ℚ :=
  ((roundHalfAway (a / b * 10 ^ 16) : ℚ)) / 10 ^ 16

/-! ### Go map model (string-keyed association lists) -/

def mapSet (m : List (String × ℚ)) (k : String) (v : ℚ) : List (String × ℚ) :=
  match m with
  | [] => [(k, v)]
  | (k', v') :: rest => if k' = k then (k, v) :: rest else (k', v') :: mapSet rest k v

def mapDel (m : List (String × ℚ)) (k : String) : List (String × ℚ) :=
  match m with
  | [] => []
  | (k', v') :: rest => if k' = k then rest else (k', v') :: mapDel rest k

/-! ### Wire message types (`types.go`) -/

structure RawOrderSummary where
  price : String
  size : String

/-- `BookMessage` (the millisecond timestamp string is parsed by the
manager before application; handlers below receive the parsed value). -/
structure BookMessage where
  assetID : String
  market : String
  hash : String
  bids : List RawOrderSummary
  asks : List RawOrderSummary

/-- `PriceChange`; `Side` is a string type in the source, compared
against the constants `"BUY"` / `"SELL"`. -/
structure PriceChange where
  assetID : String
  price : String
  size : String
  side : String
  hash : String

structure OrderSummary where
  price : ℚ
  size : ℚ
deriving DecidableEq

/-! ### The book replica (`orderbook.go`) -/

/-- `OrderBook`; the field `inited` embeds the Go field named
`initialized` (false until the first snapshot is absorbed). -/
structure OrderBook where
  tokenID : String
  market : String := ""
  hash : String := ""
  timestamp : ℤ := 0
  inited : Bool := false
  bids : List (String × ℚ) := []
  asks : List (String × ℚ) := []

def NewOrderBook (tid : String) : OrderBook := { tokenID := tid }

/-- One side of `ApplyBookSnapshot`: parse price and size strictly,
skip malformed entries, store only strictly positive sizes, keyed by
the original price string. -/
def buildSide (entries : List RawOrderSummary) : List (String × ℚ) :=
  entries.foldl
    (fun m e =>
      match parseDec e.price with
      | none => m
      | some _ =>
        match parseDec e.size with
        | none => m
        | some sz => if 0 < sz then mapSet m e.price sz else m)
    []

/-- `OrderBook.ApplyBookSnapshot`: reject stale timestamps, otherwise
replace both sides, record market/hash, set `timestamp := ts` and mark
the book initialized. -/
def OrderBook.ApplyBookSnapshot (ob : OrderBook) (msg : BookMessage) (ts : ℤ) :
    Bool × OrderBook :=
  if ts < ob.timestamp then (false, ob)
  else
    (true,
      { ob with
        bids := buildSide msg.bids
        asks := buildSide msg.asks
        market := msg.market
        hash := msg.hash
        timestamp := ts
        inited := true })

/-- `OrderBook.ApplyPriceChange`: requires an initialized book and a
non-stale timestamp; a parse failure of the size aborts; a zero size
deletes the level, any other parsed size is stored as-is; a side other
than BUY/SELL touches no map but still updates hash and timestamp. -/
def OrderBook.ApplyPriceChange (ob : OrderBook) (ch : PriceChange) (ts : ℤ) :
    Bool × OrderBook :=
  if ob.inited = false then (false, ob)
  else if ts < ob.timestamp then (false, ob)
  else
    match parseDec ch.size with
    | none => (false, ob)
    | some sz =>
      let ob' :=
        if ch.side = "BUY" then
          { ob with bids := if sz = 0 then mapDel ob.bids ch.price else mapSet ob.bids ch.price sz }
        else if ch.side = "SELL" then
          { ob with asks := if sz = 0 then mapDel ob.asks ch.price else mapSet ob.asks ch.price sz }
        else ob
      (true, { ob' with hash := ch.hash, timestamp := ts })

/-! ### Operation sequences on one replica -/

inductive BookOp
  | snapshot (msg : BookMessage) (ts : ℤ)
  | delta (ch : PriceChange) (ts : ℤ)

def BookOp.ts : BookOp → ℤ
  | .snapshot _ t => t
  | .delta _ t => t

def OrderBook.step (ob : OrderBook) : BookOp → Bool × OrderBook
  | .snapshot msg t => ob.ApplyBookSnapshot msg t
  | .delta ch t => ob.ApplyPriceChange ch t

def OrderBook.run (ob : OrderBook) (ops : List BookOp) : OrderBook :=
  ops.foldl (fun b op => (b.step op).2) ob

lemma step_timestamp_le (ob : OrderBook) (op : BookOp) :
    ob.timestamp ≤ ((ob.step op).2).timestamp := by
  cases op with
  | snapshot msg t =>
    simp only [OrderBook.step, OrderBook.ApplyBookSnapshot]
    split
    · exact le_refl _
    · simp only []
      omega
  | delta ch t =>
    simp only [OrderBook.step, OrderBook.ApplyPriceChange]
    split
    · exact le_refl _
    · split
      · exact le_refl _
      · cases parseDec ch.size with
        | none => exact le_refl _
        | some sz =>
          simp only []
          omega

lemma run_timestamp_mono (ob : OrderBook) (ops : List BookOp) :
    ob.timestamp ≤ (ob.run ops).timestamp := by
  induction ops generalizing ob with
  | nil => exact le_refl _
  | cons op rest ih =>
    exact le_trans (step_timestamp_le ob op) (ih _)

/-- C1. Successful snapshot/delta applications set `timestamp := ts`
with `ts` at least the previous timestamp; stale messages are rejected
without touching the state; over any call sequence the timestamp never
decreases. -/
theorem C1_timestamp_monotone :
    (∀ (ob : OrderBook) (msg : BookMessage) (ts : ℤ),
      ts < ob.timestamp → ob.ApplyBookSnapshot msg ts = (false, ob)) ∧
    (∀ (ob : OrderBook) (ch : PriceChange) (ts : ℤ),
      ts < ob.timestamp → ob.ApplyPriceChange ch ts = (false, ob)) ∧
    (∀ (ob : OrderBook) (op : BookOp) (ob' : OrderBook),
      ob.step op = (true, ob') → ob'.timestamp = op.ts ∧ ob.timestamp ≤ op.ts) ∧
    (∀ (ob : OrderBook) (ops : List BookOp),
      ob.timestamp ≤ (ob.run ops).timestamp) := by
  refine ⟨?_, ?_, ?_, run_timestamp_mono⟩
  · intro ob msg ts h
    simp [OrderBook.ApplyBookSnapshot, if_pos h]
  · intro ob ch ts h
    unfold OrderBook.ApplyPriceChange
    split
    · rfl
    · simp [if_pos h]
  · intro ob op ob' h
    cases op with
    | snapshot msg t =>
      simp only [OrderBook.step, OrderBook.ApplyBookSnapshot] at h
      split at h
      · exact absurd (congrArg Prod.fst h) (by simp)
      · rename_i hts
        refine ⟨?_, by simpa [BookOp.ts] using not_lt.mp hts⟩
        have := congrArg Prod.snd h
        simp only at this
        rw [← this]
        rfl
    | delta ch t =>
      simp only [OrderBook.step, OrderBook.ApplyPriceChange] at h
      split at h
      · exact absurd (congrArg Prod.fst h) (by simp)
      · split at h
        · exact absurd (congrArg Prod.fst h) (by simp)
        · rename_i hts
          cases hp : parseDec ch.size with
          | none => rw [hp] at h; exact absurd (congrArg Prod.fst h) (by simp)
          | some sz =>
            rw [hp] at h
            refine ⟨?_, by simpa [BookOp.ts] using not_lt.mp hts⟩
            have := congrArg Prod.snd h
            simp only at this
            rw [← this]
            rfl

/-- C1 witness: a snapshot with `ts = -1` against a fresh book (whose
timestamp is 0) is rejected unchanged, and the overall monotonicity
instance at a concrete run. -/
theorem C1_timestamp_monotone_witness :
    ((-1 : ℤ) < (NewOrderBook ("T")).timestamp ∧
      (NewOrderBook ("T")).ApplyBookSnapshot ⟨("T"), ("m"), ("h"), [], []⟩ (-1)
        = (false, NewOrderBook ("T"))) ∧
    (NewOrderBook ("T")).timestamp ≤
      ((NewOrderBook ("T")).run [.snapshot ⟨("T"), ("m"), ("h"), [], []⟩ 5]).timestamp := by
  refine ⟨⟨by decide, C1_timestamp_monotone.1 _ _ _ (by decide)⟩, ?_⟩
  exact C1_timestamp_monotone.2.2.2 _ _

/-! ### C2: stored sizes -/

lemma mem_mapSet {m : List (String × ℚ)} {k : String} {v : ℚ} {p : String × ℚ}
    (h : p ∈ mapSet m k v) : p ∈ m ∨ p = (k, v) := by
  induction m with
  | nil =>
    simp [mapSet] at h
    exact Or.inr h
  | cons q rest ih =>
    obtain ⟨k', v'⟩ := q
    simp only [mapSet] at h
    by_cases hk : k' = k
    · rw [if_pos hk] at h
      rcases List.mem_cons.mp h with h1 | h1
      · exact Or.inr h1
      · exact Or.inl (List.mem_cons_of_mem _ h1)
    · rw [if_neg hk] at h
      rcases List.mem_cons.mp h with h1 | h1
      · exact Or.inl (List.mem_cons.mpr (Or.inl h1))
      · rcases ih h1 with h2 | h2
        · exact Or.inl (List.mem_cons_of_mem _ h2)
        · exact Or.inr h2

lemma mem_mapDel {m : List (String × ℚ)} {k : String} {p : String × ℚ}
    (h : p ∈ mapDel m k) : p ∈ m := by
  induction m with
  | nil =>
    simp [mapDel] at h
  | cons q rest ih =>
    obtain ⟨k', v'⟩ := q
    simp only [mapDel] at h
    by_cases hk : k' = k
    · rw [if_pos hk] at h
      exact List.mem_cons_of_mem _ h
    · rw [if_neg hk] at h
      rcases List.mem_cons.mp h with h1 | h1
      · exact List.mem_cons.mpr (Or.inl h1)
      · exact List.mem_cons_of_mem _ (ih h1)

/-- Every size in one side built by a snapshot is strictly positive. -/
lemma buildSide_pos (entries : List RawOrderSummary) :
    ∀ p ∈ buildSide entries, 0 < p.2 := by
  have main : ∀ (l : List RawOrderSummary) (acc : List (String × ℚ)),
      (∀ p ∈ acc, 0 < p.2) →
      ∀ p ∈ l.foldl
        (fun m e =>
          match parseDec e.price with
          | none => m
          | some _ =>
            match parseDec e.size with
            | none => m
            | some sz => if 0 < sz then mapSet m e.price sz else m) acc, 0 < p.2 := by
    intro l
    induction l with
    | nil => intro acc hacc p hp; exact hacc p hp
    | cons e rest ih =>
      intro acc hacc p hp
      simp only [List.foldl_cons] at hp
      refine ih _ ?_ p hp
      cases hpr : parseDec e.price with
      | none => simpa [hpr] using hacc
      | some pv =>
        cases hsz : parseDec e.size with
        | none => simpa [hpr, hsz] using hacc
        | some sz =>
          simp only [hpr, hsz]
          by_cases h0 : 0 < sz
          · rw [if_pos h0]
            intro q hq
            rcases mem_mapSet hq with h1 | h1
            · exact hacc q h1
            · rw [h1]; exact h0
          · rw [if_neg h0]; exact hacc
  exact main entries [] (by intro p hp; simp at hp)

/-- All sizes on both sides are nonzero. -/
def OrderBook.sizesNonzero (ob : OrderBook) : Prop :=
  (∀ p ∈ ob.bids, p.2 ≠ 0) ∧ (∀ p ∈ ob.asks, p.2 ≠ 0)

lemma step_sizesNonzero {ob : OrderBook} (op : BookOp) (h : ob.sizesNonzero) :
    ((ob.step op).2).sizesNonzero := by
  cases op with
  | snapshot msg t =>
    simp only [OrderBook.step, OrderBook.ApplyBookSnapshot]
    split
    · exact h
    · exact ⟨fun p hp => ne_of_gt (buildSide_pos msg.bids p hp),
        fun p hp => ne_of_gt (buildSide_pos msg.asks p hp)⟩
  | delta ch t =>
    simp only [OrderBook.step, OrderBook.ApplyPriceChange]
    split
    · exact h
    · split
      · exact h
      · cases hsz : parseDec ch.size with
        | none => exact h
        | some sz =>
          simp only []
          by_cases hb : ch.side = "BUY"
          · rw [if_pos hb]
            by_cases h0 : sz = 0
            · rw [if_pos h0]
              exact ⟨fun p hp => h.1 p (mem_mapDel hp), h.2⟩
            · rw [if_neg h0]
              refine ⟨fun p hp => ?_, h.2⟩
              rcases mem_mapSet hp with h1 | h1
              · exact h.1 p h1
              · rw [h1]; exact h0
          · rw [if_neg hb]
            by_cases hs : ch.side = "SELL"
            · rw [if_pos hs]
              by_cases h0 : sz = 0
              · rw [if_pos h0]
                exact ⟨h.1, fun p hp => h.2 p (mem_mapDel hp)⟩
              · rw [if_neg h0]
                refine ⟨h.1, fun p hp => ?_⟩
                rcases mem_mapSet hp with h1 | h1
                · exact h.2 p h1
                · rw [h1]; exact h0
            · rw [if_neg hs]
              exact h

/-- Concrete run refuting C2: a `price_change` with size string `"-5"`
parses to a negative decimal, is not zero, and is stored verbatim. -/
def c2Book : OrderBook :=
  ((((NewOrderBook ("T")).ApplyBookSnapshot ⟨("T"), ("m"), ("h"), [], []⟩ 0).2).ApplyPriceChange
    ⟨("T"), ("0.5"), ("-5"), ("BUY"), ("h2")⟩ 1).2

/-- C2 counterexample: after a legal snapshot, a price change carrying
the wire size `"-5"` stores the negative size `-5` in the bids map, so
not every stored size is strictly positive. -/
theorem C2_counterexample :
    (("0.5"), (-5 : ℚ)) ∈ c2Book.bids ∧ ¬ (0 < (-5 : ℚ)) := by
  constructor
  · norm_num +decide [c2Book, NewOrderBook, OrderBook.ApplyBookSnapshot,
      OrderBook.ApplyPriceChange, buildSide, mapSet, mapDel, parseDec, parseUnsignedDec,
      breakDot, digitsToNat, digitVal]
  · norm_num

/-- C2 amended: the snapshot path stores only strictly positive sizes,
and across every call sequence every stored size is nonzero; the
`price_change` path, however, stores any successfully parsed nonzero
size, including negative ones (see the counterexample). -/
theorem C2_sizes_nonzero :
    (∀ (tid : String) (ops : List BookOp), ((NewOrderBook tid).run ops).sizesNonzero) ∧
    (∀ (ob ob' : OrderBook) (msg : BookMessage) (ts : ℤ),
      ob.ApplyBookSnapshot msg ts = (true, ob') →
      (∀ p ∈ ob'.bids, 0 < p.2) ∧ (∀ p ∈ ob'.asks, 0 < p.2)) := by
  constructor
  · intro tid ops
    have base : (NewOrderBook tid).sizesNonzero := by
      constructor <;> intro p hp <;> simp [NewOrderBook] at hp
    have : ∀ (l : List BookOp) (b : OrderBook), b.sizesNonzero → (b.run l).sizesNonzero := by
      intro l
      induction l with
      | nil => intro b hb; exact hb
      | cons op rest ih =>
        intro b hb
        exact ih _ (step_sizesNonzero op hb)
    exact this ops _ base
  · intro ob ob' msg ts h
    unfold OrderBook.ApplyBookSnapshot at h
    split at h
    · exact absurd (congrArg Prod.fst h) (by simp)
    · have := congrArg Prod.snd h
      simp only at this
      rw [← this]
      exact ⟨fun p hp => buildSide_pos msg.bids p hp,
        fun p hp => buildSide_pos msg.asks p hp⟩

/-- C2 amended witness: concrete snapshot application with positive
sizes, and the nonzero invariant on a concrete run. -/
theorem C2_sizes_nonzero_witness :
    ((NewOrderBook ("T")).run [.snapshot ⟨("T"), ("m"), ("h"),
      [⟨("0.5"), ("10")⟩], []⟩ 0]).sizesNonzero ∧
    (∀ p ∈ ({ NewOrderBook ("T") with
        bids := [(("0.5"), (10 : ℚ))], market := ("m"), hash := ("h"),
        timestamp := 0, inited := true } : OrderBook).bids, 0 < p.2) := by
  refine ⟨C2_sizes_nonzero.1 _ _, ?_⟩
  have hEq : (NewOrderBook ("T")).ApplyBookSnapshot
      ⟨("T"), ("m"), ("h"), [⟨("0.5"), ("10")⟩], []⟩ 0 =
      (true, { NewOrderBook ("T") with
        bids := [(("0.5"), (10 : ℚ))], market := ("m"), hash := ("h"),
        timestamp := 0, inited := true }) := by
    norm_num +decide [NewOrderBook, OrderBook.ApplyBookSnapshot, buildSide, mapSet,
      parseDec, parseUnsignedDec, breakDot, digitsToNat, digitVal]
  exact (C2_sizes_nonzero.2 _ _ _ 0 hEq).1

/-! ### Sorted ladders (`rebuildSortedBids` / `rebuildSortedAsks`)

The rebuild walks the map, parses each key (ignoring the parse error,
so an unparsable key contributes price 0) and sorts by parsed price —
asks ascending, bids descending. -/

def OrderBook.bidSummaries (ob : OrderBook) : List OrderSummary :=
  ob.bids.map (fun p => ⟨parseDecOr0 p.1, p.2⟩)

def OrderBook.askSummaries (ob : OrderBook) : List OrderSummary :=
  ob.asks.map (fun p => ⟨parseDecOr0 p.1, p.2⟩)

def insertAsc (x : OrderSummary) : List OrderSummary → List OrderSummary
  | [] => [x]
  | y :: ys => if x.price < y.price then x :: y :: ys else y :: insertAsc x ys

def sortAsc (l : List OrderSummary) : List OrderSummary := l.foldr insertAsc []

def insertDesc (x : OrderSummary) : List OrderSummary → List OrderSummary
  | [] => [x]
  | y :: ys => if y.price < x.price then x :: y :: ys else y :: insertDesc x ys

def sortDesc (l : List OrderSummary) : List OrderSummary := l.foldr insertDesc []

def OrderBook.sortedBids (ob : OrderBook) : List OrderSummary := sortDesc ob.bidSummaries

def OrderBook.sortedAsks (ob : OrderBook) : List OrderSummary := sortAsc ob.askSummaries

/-! ### Read operations on the replica -/

structure BestPrice where
  price : ℚ
  size : ℚ
  timestamp : ℤ
deriving DecidableEq

structure BBO where
  bestBid : Option BestPrice
  bestAsk : Option BestPrice
deriving DecidableEq

/-- `OrderBook.GetBestBid` (the source leaves the `Timestamp` field of
the bid at its zero value). -/
def OrderBook.GetBestBid (ob : OrderBook) : Option BestPrice :=
  if ob.inited = false ∨ ob.bids = [] then none
  else
    match ob.sortedBids with
    | [] => none
    | b :: _ => some ⟨b.price, b.size, 0⟩

/-- `OrderBook.GetBestAsk` (sets `Timestamp` to the book timestamp). -/
def OrderBook.GetBestAsk (ob : OrderBook) : Option BestPrice :=
  if ob.inited = false ∨ ob.asks = [] then none
  else
    match ob.sortedAsks with
    | [] => none
    | a :: _ => some ⟨a.price, a.size, ob.timestamp⟩

/-- `OrderBook.GetBBO`: `nil` only when uninitialized; an empty side
yields a `BBO` whose corresponding field is absent. -/
def OrderBook.GetBBO (ob : OrderBook) : Option BBO :=
  if ob.inited = false then none
  else
    some ⟨(ob.sortedBids.head?).map (fun b => ⟨b.price, b.size, 0⟩),
      (ob.sortedAsks.head?).map (fun a => ⟨a.price, a.size, 0⟩)⟩

/-- `OrderBook.GetMidPrice`: `(best_bid + best_ask).Div(2)` (shopspring
rounded division). -/
def OrderBook.GetMidPrice (ob : OrderBook) : Option ℚ :=
  if ob.inited = false then none
  else
    match ob.sortedBids, ob.sortedAsks with
    | b :: _, a :: _ => some (decDiv (b.price + a.price) 2)
    | _, _ => none

/-- `OrderBook.GetSpread`: `best_ask.Sub(best_bid)` (exact). -/
def OrderBook.GetSpread (ob : OrderBook) : Option ℚ :=
  if ob.inited = false then none
  else
    match ob.sortedBids, ob.sortedAsks with
    | b :: _, a :: _ => some (a.price - b.price)
    | _, _ => none

/-- Outcome of `OrderBook.GetDepth`: the Go code returns `(nil, nil)`
for an uninitialized book, and `make([]OrderSummary, n)` panics when
`n < 0` ("makeslice: len out of range"). -/
inductive DepthOutcome
  | panicNeg
  | uninit
  | ok (bids : List OrderSummary) (asks : List OrderSummary)
deriving DecidableEq

/-- `OrderBook.GetDepth`: `bidCount := depth` clamped from above by the
ladder length but never from below, so a negative `depth` reaches the
slice allocation unchanged and panics. -/
def OrderBook.GetDepth (ob : OrderBook) (depth : ℤ) : DepthOutcome :=
  if ob.inited = false then .uninit
  else
    let bidCount := if depth > (ob.sortedBids.length : ℤ) then (ob.sortedBids.length : ℤ) else depth
    if bidCount < 0 then .panicNeg
    else
      let askCount := if depth > (ob.sortedAsks.length : ℤ) then (ob.sortedAsks.length : ℤ) else depth
      if askCount < 0 then .panicNeg
      else .ok (ob.sortedBids.take bidCount.toNat) (ob.sortedAsks.take askCount.toNat)

/-- `OrderBook.GetTotalBidSize`: zero when uninitialized, else the sum
over the unordered map. -/
def OrderBook.GetTotalBidSize (ob : OrderBook) : ℚ :=
  if ob.inited = false then 0 else (ob.bids.map (fun p => p.2)).sum

def OrderBook.GetTotalAskSize (ob : OrderBook) : ℚ :=
  if ob.inited = false then 0 else (ob.asks.map (fun p => p.2)).sum

def OrderBook.GetAllBids (ob : OrderBook) : Option (List OrderSummary) :=
  if ob.inited = false then none else some ob.sortedBids

def OrderBook.GetAllAsks (ob : OrderBook) : Option (List OrderSummary) :=
  if ob.inited = false then none else some ob.sortedAsks

structure ScanResult where
  orders : List OrderSummary
  totalSize : ℚ
  avgPrice : ℚ
deriving DecidableEq

/-- The ask-scan loop: include levels while `price ≤ maxP`, stop at the
first level above (early exit justified by the ascending order). -/
def scanLE (maxP : ℚ) : List OrderSummary → List OrderSummary × ℚ × ℚ
  | [] => ([], 0, 0)
  | o :: rest =>
    if o.price ≤ maxP then
      let (os, t, v) := scanLE maxP rest
      (o :: os, t + o.size, v + o.price * o.size)
    else ([], 0, 0)

/-- The bid-scan loop: include levels while `minP ≤ price`. -/
def scanGE (minP : ℚ) : List OrderSummary → List OrderSummary × ℚ × ℚ
  | [] => ([], 0, 0)
  | o :: rest =>
    if minP ≤ o.price then
      let (os, t, v) := scanGE minP rest
      (o :: os, t + o.size, v + o.price * o.size)
    else ([], 0, 0)

/-- `OrderBook.ScanAsksBelow`: sum the qualifying ask levels; the
weighted average uses shopspring division and stays 0 when nothing
qualifies. -/
def OrderBook.ScanAsksBelow (ob : OrderBook) (maxPrice : ℚ) : Option ScanResult :=
  if ob.inited = false then none
  else
    let (os, t, v) := scanLE maxPrice ob.sortedAsks
    some ⟨os, t, if 0 < t then decDiv v t else 0⟩

def OrderBook.ScanBidsAbove (ob : OrderBook) (minPrice : ℚ) : Option ScanResult :=
  if ob.inited = false then none
  else
    let (os, t, v) := scanGE minPrice ob.sortedBids
    some ⟨os, t, if 0 < t then decDiv v t else 0⟩

/-! ### Simulated fill (spec §4.A `simulate_buy_asks`) -/

structure FillResult where
  orders : List OrderSummary
  filledSize : ℚ
  avgPrice : ℚ
  completelyFilled : Bool
deriving DecidableEq

/-- Modelled from the spec: the method `OrderBook.SimulateBuyAsks` and
the `FillResult` type are not under `src/` (only the facade wrapper
`SDK.SimulateBuyAsks` and a documentation caller are). Spec §4.A:
traverse sorted asks ascending and accumulate until
`filled_size ≥ required_size`; the last entry contributes only its
needed remainder to `filled_size` and to `cost`. -/
def fillAccum (required : ℚ) : List OrderSummary → ℚ → ℚ → List OrderSummary × ℚ × ℚ
  | [], filled, cost => ([], filled, cost)
  | o :: rest, filled, cost =>
    if required ≤ filled then ([], filled, cost)
    else
      let amt := min o.size (required - filled)
      let (os, f, c) := fillAccum required rest (filled + amt) (cost + o.price * amt)
      (⟨o.price, amt⟩ :: os, f, c)

/-- Modelled from the spec: `weighted_avg_price := cost / filled_size`
(exact division per §4.A numeric semantics; in `ℚ` a zero fill yields
average 0), `completely_filled := filled_size ≥ required_size`; like
every other derived query the method reports nothing on an
uninitialized book. -/
def OrderBook.SimulateBuyAsks (ob : OrderBook) (requiredSize : ℚ) : Option FillResult :=
  if ob.inited = false then none
  else
    let (os, f, c) := fillAccum requiredSize ob.sortedAsks 0 0
    some ⟨os, f, c / f, decide (requiredSize ≤ f)⟩

/-! ### The facade (`sdk.go`)

The facade state is the manager's token → replica map (the claims under
study presuppose a started facade, i.e. a non-nil manager). Errors:
`errTokenNotFound`, `errNotInited` (Go `ErrNotInitialized`) and
`errNoData` mirror the three error values of `sdk.go`. -/

inductive SDKErr
  | errNotInited
  | errTokenNotFound
  | errNoData
deriving DecidableEq

def lookupBook : List (String × OrderBook) → String → Option OrderBook
  | [], _ => none
  | (k, b) :: rest, tid => if k = tid then some b else lookupBook rest tid

def SDK.GetBestBid (st : List (String × OrderBook)) (tokenID : String) :
    Except SDKErr BestPrice :=
  match lookupBook st tokenID with
  | none => .error .errTokenNotFound
  | some ob =>
    match ob.GetBestBid with
    | none => .error .errNoData
    | some v => .ok v

def SDK.GetBestAsk (st : List (String × OrderBook)) (tokenID : String) :
    Except SDKErr BestPrice :=
  match lookupBook st tokenID with
  | none => .error .errTokenNotFound
  | some ob =>
    match ob.GetBestAsk with
    | none => .error .errNoData
    | some v => .ok v

def SDK.GetBBO (st : List (String × OrderBook)) (tokenID : String) :
    Except SDKErr BBO :=
  match lookupBook st tokenID with
  | none => .error .errTokenNotFound
  | some ob =>
    match ob.GetBBO with
    | none => .error .errNotInited
    | some v => .ok v

def SDK.GetMidPrice (st : List (String × OrderBook)) (tokenID : String) :
    Except SDKErr ℚ :=
  match lookupBook st tokenID with
  | none => .error .errTokenNotFound
  | some ob =>
    match ob.GetMidPrice with
    | none => .error .errNoData
    | some v => .ok v

def SDK.GetSpread (st : List (String × OrderBook)) (tokenID : String) :
    Except SDKErr ℚ :=
  match lookupBook st tokenID with
  | none => .error .errTokenNotFound
  | some ob =>
    match ob.GetSpread with
    | none => .error .errNoData
    | some v => .ok v

/-- `SDK.GetDepth` forwards the caller's depth to the replica without
validation; a panic inside `GetDepth` escapes the facade. -/
inductive SDKDepthResult
  | err (e : SDKErr)
  | panicNeg
  | ok (bids : List OrderSummary) (asks : List OrderSummary)
deriving DecidableEq

def SDK.GetDepth (st : List (String × OrderBook)) (tokenID : String) (depth : ℤ) :
    SDKDepthResult :=
  match lookupBook st tokenID with
  | none => .err .errTokenNotFound
  | some ob =>
    match ob.GetDepth depth with
    | .panicNeg => .panicNeg
    | .uninit => .err .errNotInited
    | .ok b a => .ok b a

def SDK.GetTotalBidSize (st : List (String × OrderBook)) (tokenID : String) :
    Except SDKErr ℚ :=
  match lookupBook st tokenID with
  | none => .error .errTokenNotFound
  | some ob =>
    if ob.inited = false then .error .errNotInited else .ok ob.GetTotalBidSize

def SDK.GetTotalAskSize (st : List (String × OrderBook)) (tokenID : String) :
    Except SDKErr ℚ :=
  match lookupBook st tokenID with
  | none => .error .errTokenNotFound
  | some ob =>
    if ob.inited = false then .error .errNotInited else .ok ob.GetTotalAskSize

def SDK.GetAllBids (st : List (String × OrderBook)) (tokenID : String) :
    Except SDKErr (List OrderSummary) :=
  match lookupBook st tokenID with
  | none => .error .errTokenNotFound
  | some ob =>
    match ob.GetAllBids with
    | none => .error .errNotInited
    | some v => .ok v

def SDK.GetAllAsks (st : List (String × OrderBook)) (tokenID : String) :
    Except SDKErr (List OrderSummary) :=
  match lookupBook st tokenID with
  | none => .error .errTokenNotFound
  | some ob =>
    match ob.GetAllAsks with
    | none => .error .errNotInited
    | some v => .ok v

def SDK.ScanAsksBelow (st : List (String × OrderBook)) (tokenID : String) (maxPrice : ℚ) :
    Except SDKErr ScanResult :=
  match lookupBook st tokenID with
  | none => .error .errTokenNotFound
  | some ob =>
    match ob.ScanAsksBelow maxPrice with
    | none => .error .errNotInited
    | some v => .ok v

def SDK.ScanBidsAbove (st : List (String × OrderBook)) (tokenID : String) (minPrice : ℚ) :
    Except SDKErr ScanResult :=
  match lookupBook st tokenID with
  | none => .error .errTokenNotFound
  | some ob =>
    match ob.ScanBidsAbove minPrice with
    | none => .error .errNotInited
    | some v => .ok v

def SDK.SimulateBuyAsks (st : List (String × OrderBook)) (tokenID : String) (requiredSize : ℚ) :
    Except SDKErr FillResult :=
  match lookupBook st tokenID with
  | none => .error .errTokenNotFound
  | some ob =>
    match ob.SimulateBuyAsks requiredSize with
    | none => .error .errNotInited
    | some v => .ok v

def SDK.GetOrderBookTimestamp (st : List (String × OrderBook)) (tokenID : String) :
    Except SDKErr ℤ :=
  match lookupBook st tokenID with
  | none => .error .errTokenNotFound
  | some ob =>
    if ob.inited = false then .error .errNotInited else .ok ob.timestamp

def SDK.GetOrderBookHash (st : List (String × OrderBook)) (tokenID : String) :
    Except SDKErr String :=
  match lookupBook st tokenID with
  | none => .error .errTokenNotFound
  | some ob =>
    if ob.inited = false then .error .errNotInited else .ok ob.hash

/-! ### Ladder lemmas -/

lemma insertAsc_length (x : OrderSummary) (l : List OrderSummary) :
    (insertAsc x l).length = l.length + 1 := by
  induction l with
  | nil => rfl
  | cons y ys ih =>
    simp only [insertAsc]
    split
    · simp
    · simp [ih]

lemma sortAsc_length (l : List OrderSummary) : (sortAsc l).length = l.length := by
  induction l with
  | nil => rfl
  | cons x t ih =>
    show (insertAsc x (sortAsc t)).length = t.length + 1
    rw [insertAsc_length, ih]

lemma insertDesc_length (x : OrderSummary) (l : List OrderSummary) :
    (insertDesc x l).length = l.length + 1 := by
  induction l with
  | nil => rfl
  | cons y ys ih =>
    simp only [insertDesc]
    split
    · simp
    · simp [ih]

lemma sortDesc_length (l : List OrderSummary) : (sortDesc l).length = l.length := by
  induction l with
  | nil => rfl
  | cons x t ih =>
    show (insertDesc x (sortDesc t)).length = t.length + 1
    rw [insertDesc_length, ih]

lemma sortedBids_nil_iff (ob : OrderBook) : ob.sortedBids = [] ↔ ob.bids = [] := by
  have hlen : ob.sortedBids.length = ob.bids.length := by
    rw [OrderBook.sortedBids, sortDesc_length, OrderBook.bidSummaries, List.length_map]
  rw [← List.length_eq_zero, ← List.length_eq_zero, hlen]

lemma sortedAsks_nil_iff (ob : OrderBook) : ob.sortedAsks = [] ↔ ob.asks = [] := by
  have hlen : ob.sortedAsks.length = ob.asks.length := by
    rw [OrderBook.sortedAsks, sortAsc_length, OrderBook.askSummaries, List.length_map]
  rw [← List.length_eq_zero, ← List.length_eq_zero, hlen]

/-! ### Behaviour of each replica read on the three conditions -/

lemma getBestBid_uninit {ob : OrderBook} (h : ob.inited = false) :
    ob.GetBestBid = none := by
  simp [OrderBook.GetBestBid, h]

lemma getBestBid_empty {ob : OrderBook} (h : ob.bids = []) :
    ob.GetBestBid = none := by
  simp [OrderBook.GetBestBid, h]

lemma getBestBid_some {ob : OrderBook} (hi : ob.inited = true) (hb : ob.bids ≠ []) :
    ∃ v, ob.GetBestBid = some v := by
  cases hs : ob.sortedBids with
  | nil => exact absurd ((sortedBids_nil_iff ob).mp hs) hb
  | cons b t =>
    refine ⟨⟨b.price, b.size, 0⟩, ?_⟩
    simp [OrderBook.GetBestBid, hi, hb, hs]

lemma getBestAsk_uninit {ob : OrderBook} (h : ob.inited = false) :
    ob.GetBestAsk = none := by
  simp [OrderBook.GetBestAsk, h]

lemma getBestAsk_empty {ob : OrderBook} (h : ob.asks = []) :
    ob.GetBestAsk = none := by
  simp [OrderBook.GetBestAsk, h]

lemma getBestAsk_some {ob : OrderBook} (hi : ob.inited = true) (ha : ob.asks ≠ []) :
    ∃ v, ob.GetBestAsk = some v := by
  cases hs : ob.sortedAsks with
  | nil => exact absurd ((sortedAsks_nil_iff ob).mp hs) ha
  | cons a t =>
    refine ⟨⟨a.price, a.size, ob.timestamp⟩, ?_⟩
    simp [OrderBook.GetBestAsk, hi, ha, hs]

lemma getMidPrice_none {ob : OrderBook} (h : ob.bids = [] ∨ ob.asks = []) :
    ob.GetMidPrice = none := by
  unfold OrderBook.GetMidPrice
  rcases h with h | h
  · have : ob.sortedBids = [] := (sortedBids_nil_iff ob).mpr h
    split
    · rfl
    · rw [this]
  · have : ob.sortedAsks = [] := (sortedAsks_nil_iff ob).mpr h
    split
    · rfl
    · rw [this]
      cases ob.sortedBids <;> rfl

lemma getMidPrice_some {ob : OrderBook} (hi : ob.inited = true)
    (hb : ob.bids ≠ []) (ha : ob.asks ≠ []) : ∃ v, ob.GetMidPrice = some v := by
  cases hsb : ob.sortedBids with
  | nil => exact absurd ((sortedBids_nil_iff ob).mp hsb) hb
  | cons b tb =>
    cases hsa : ob.sortedAsks with
    | nil => exact absurd ((sortedAsks_nil_iff ob).mp hsa) ha
    | cons a ta =>
      refine ⟨decDiv (b.price + a.price) 2, ?_⟩
      simp [OrderBook.GetMidPrice, hi, hsb, hsa]

lemma getSpread_none {ob : OrderBook} (h : ob.bids = [] ∨ ob.asks = []) :
    ob.GetSpread = none := by
  unfold OrderBook.GetSpread
  rcases h with h | h
  · have : ob.sortedBids = [] := (sortedBids_nil_iff ob).mpr h
    split
    · rfl
    · rw [this]
  · have : ob.sortedAsks = [] := (sortedAsks_nil_iff ob).mpr h
    split
    · rfl
    · rw [this]
      cases ob.sortedBids <;> rfl

lemma getSpread_some {ob : OrderBook} (hi : ob.inited = true)
    (hb : ob.bids ≠ []) (ha : ob.asks ≠ []) : ∃ v, ob.GetSpread = some v := by
  cases hsb : ob.sortedBids with
  | nil => exact absurd ((sortedBids_nil_iff ob).mp hsb) hb
  | cons b tb =>
    cases hsa : ob.sortedAsks with
    | nil => exact absurd ((sortedAsks_nil_iff ob).mp hsa) ha
    | cons a ta =>
      refine ⟨a.price - b.price, ?_⟩
      simp [OrderBook.GetSpread, hi, hsb, hsa]

lemma getDepth_nonneg {ob : OrderBook} (hi : ob.inited = true) {n : ℤ} (hn : 0 ≤ n) :
    ob.GetDepth n = .ok (ob.sortedBids.take n.toNat) (ob.sortedAsks.take n.toNat) := by
  have takeEq : ∀ (l : List OrderSummary),
      l.take ((if n > (l.length : ℤ) then (l.length : ℤ) else n).toNat) = l.take n.toNat := by
    intro l
    by_cases h : n > (l.length : ℤ)
    · rw [if_pos h]
      simp only [Int.toNat_natCast, List.take_length]
      exact (List.take_of_length_le (by omega)).symm
    · rw [if_neg h]
  unfold OrderBook.GetDepth
  rw [hi]
  simp only [Bool.true_eq_false, if_false]
  rw [if_neg (by split <;> omega), if_neg (by split <;> omega), takeEq, takeEq]

lemma getDepth_neg {ob : OrderBook} (hi : ob.inited = true) {n : ℤ} (hn : n < 0) :
    ob.GetDepth n = .panicNeg := by
  unfold OrderBook.GetDepth
  rw [hi]
  simp only [Bool.true_eq_false, if_false]
  rw [if_pos (by split <;> omega)]

/-! ### C3: facade error discipline -/

/-- C3 counterexample: for a subscribed token whose book has not yet
absorbed a snapshot, `GetBestBid` fails with `NoData`, not with the
`NotInitialized` error the claim prescribes. -/
theorem C3_counterexample :
    SDK.GetBestBid [(("T1"), NewOrderBook ("T1"))] ("T1") =
        .error SDKErr.errNoData ∧
    (NewOrderBook ("T1")).inited = false ∧
    (Except.error SDKErr.errNoData : Except SDKErr BestPrice) ≠
      .error SDKErr.errNotInited := by
  exact ⟨by simp [SDK.GetBestBid, lookupBook, OrderBook.GetBestBid, NewOrderBook],
    rfl, by simp⟩

/-- C3 amended: every read fails with `TokenNotFound` for an
unsubscribed token; on a subscribed but uninitialized book the four
single-value price reads (`GetBestBid`, `GetBestAsk`, `GetMidPrice`,
`GetSpread`) fail with `NoData` while the remaining reads fail with
`NotInitialized`; on an initialized book the four price reads fail with
`NoData` exactly when the needed side is empty, and every other read
succeeds (with `GetDepth` additionally requiring a non-negative depth,
see C10). -/
theorem C3_read_error_discipline :
    ∀ (st : List (String × OrderBook)) (tid : String),
    (lookupBook st tid = none →
      SDK.GetBestBid st tid = .error .errTokenNotFound ∧
      SDK.GetBestAsk st tid = .error .errTokenNotFound ∧
      SDK.GetBBO st tid = .error .errTokenNotFound ∧
      SDK.GetMidPrice st tid = .error .errTokenNotFound ∧
      SDK.GetSpread st tid = .error .errTokenNotFound ∧
      (∀ d, SDK.GetDepth st tid d = .err .errTokenNotFound) ∧
      SDK.GetTotalBidSize st tid = .error .errTokenNotFound ∧
      SDK.GetTotalAskSize st tid = .error .errTokenNotFound ∧
      SDK.GetAllBids st tid = .error .errTokenNotFound ∧
      SDK.GetAllAsks st tid = .error .errTokenNotFound ∧
      (∀ p, SDK.ScanAsksBelow st tid p = .error .errTokenNotFound) ∧
      (∀ p, SDK.ScanBidsAbove st tid p = .error .errTokenNotFound) ∧
      (∀ r, SDK.SimulateBuyAsks st tid r = .error .errTokenNotFound) ∧
      SDK.GetOrderBookTimestamp st tid = .error .errTokenNotFound ∧
      SDK.GetOrderBookHash st tid = .error .errTokenNotFound) ∧
    (∀ ob, lookupBook st tid = some ob → ob.inited = false →
      SDK.GetBestBid st tid = .error .errNoData ∧
      SDK.GetBestAsk st tid = .error .errNoData ∧
      SDK.GetMidPrice st tid = .error .errNoData ∧
      SDK.GetSpread st tid = .error .errNoData ∧
      SDK.GetBBO st tid = .error .errNotInited ∧
      (∀ d, SDK.GetDepth st tid d = .err .errNotInited) ∧
      SDK.GetTotalBidSize st tid = .error .errNotInited ∧
      SDK.GetTotalAskSize st tid = .error .errNotInited ∧
      SDK.GetAllBids st tid = .error .errNotInited ∧
      SDK.GetAllAsks st tid = .error .errNotInited ∧
      (∀ p, SDK.ScanAsksBelow st tid p = .error .errNotInited) ∧
      (∀ p, SDK.ScanBidsAbove st tid p = .error .errNotInited) ∧
      (∀ r, SDK.SimulateBuyAsks st tid r = .error .errNotInited) ∧
      SDK.GetOrderBookTimestamp st tid = .error .errNotInited ∧
      SDK.GetOrderBookHash st tid = .error .errNotInited) ∧
    (∀ ob, lookupBook st tid = some ob → ob.inited = true →
      (ob.bids = [] → SDK.GetBestBid st tid = .error .errNoData) ∧
      (ob.bids ≠ [] → ∃ v, SDK.GetBestBid st tid = .ok v) ∧
      (ob.asks = [] → SDK.GetBestAsk st tid = .error .errNoData) ∧
      (ob.asks ≠ [] → ∃ v, SDK.GetBestAsk st tid = .ok v) ∧
      (ob.bids = [] ∨ ob.asks = [] →
        SDK.GetMidPrice st tid = .error .errNoData ∧
        SDK.GetSpread st tid = .error .errNoData) ∧
      (ob.bids ≠ [] → ob.asks ≠ [] →
        (∃ v, SDK.GetMidPrice st tid = .ok v) ∧
        (∃ v, SDK.GetSpread st tid = .ok v)) ∧
      (∃ v, SDK.GetBBO st tid = .ok v) ∧
      (∀ d : ℤ, 0 ≤ d → ∃ b a, SDK.GetDepth st tid d = .ok b a) ∧
      (∃ v, SDK.GetTotalBidSize st tid = .ok v) ∧
      (∃ v, SDK.GetTotalAskSize st tid = .ok v) ∧
      (∃ v, SDK.GetAllBids st tid = .ok v) ∧
      (∃ v, SDK.GetAllAsks st tid = .ok v) ∧
      (∀ p, ∃ v, SDK.ScanAsksBelow st tid p = .ok v) ∧
      (∀ p, ∃ v, SDK.ScanBidsAbove st tid p = .ok v) ∧
      (∀ r, ∃ v, SDK.SimulateBuyAsks st tid r = .ok v) ∧
      (∃ v, SDK.GetOrderBookTimestamp st tid = .ok v) ∧
      (∃ v, SDK.GetOrderBookHash st tid = .ok v)) := by
  intro st tid
  refine ⟨?_, ?_, ?_⟩
  · intro h
    refine ⟨?_, ?_, ?_, ?_, ?_, ?_, ?_, ?_, ?_, ?_, ?_, ?_, ?_, ?_, ?_⟩ <;>
      simp [SDK.GetBestBid, SDK.GetBestAsk, SDK.GetBBO, SDK.GetMidPrice, SDK.GetSpread,
        SDK.GetDepth, SDK.GetTotalBidSize, SDK.GetTotalAskSize, SDK.GetAllBids,
        SDK.GetAllAsks, SDK.ScanAsksBelow, SDK.ScanBidsAbove, SDK.SimulateBuyAsks,
        SDK.GetOrderBookTimestamp, SDK.GetOrderBookHash, h]
  · intro ob h hi
    refine ⟨?_, ?_, ?_, ?_, ?_, ?_, ?_, ?_, ?_, ?_, ?_, ?_, ?_, ?_, ?_⟩ <;>
      simp [SDK.GetBestBid, SDK.GetBestAsk, SDK.GetBBO, SDK.GetMidPrice, SDK.GetSpread,
        SDK.GetDepth, SDK.GetTotalBidSize, SDK.GetTotalAskSize, SDK.GetAllBids,
        SDK.GetAllAsks, SDK.ScanAsksBelow, SDK.ScanBidsAbove, SDK.SimulateBuyAsks,
        SDK.GetOrderBookTimestamp, SDK.GetOrderBookHash, h, hi,
        OrderBook.GetBestBid, OrderBook.GetBestAsk, OrderBook.GetBBO,
        OrderBook.GetMidPrice, OrderBook.GetSpread, OrderBook.GetDepth,
        OrderBook.GetAllBids, OrderBook.GetAllAsks, OrderBook.ScanAsksBelow,
        OrderBook.ScanBidsAbove, OrderBook.SimulateBuyAsks]
  · intro ob h hi
    refine ⟨?_, ?_, ?_, ?_, ?_, ?_, ?_, ?_, ?_, ?_, ?_, ?_, ?_, ?_, ?_, ?_, ?_⟩
    · intro hb
      simp [SDK.GetBestBid, h, getBestBid_empty hb]
    · intro hb
      obtain ⟨v, hv⟩ := getBestBid_some hi hb
      exact ⟨v, by simp [SDK.GetBestBid, h, hv]⟩
    · intro ha
      simp [SDK.GetBestAsk, h, getBestAsk_empty ha]
    · intro ha
      obtain ⟨v, hv⟩ := getBestAsk_some hi ha
      exact ⟨v, by simp [SDK.GetBestAsk, h, hv]⟩
    · intro hor
      exact ⟨by simp [SDK.GetMidPrice, h, getMidPrice_none hor],
        by simp [SDK.GetSpread, h, getSpread_none hor]⟩
    · intro hb ha
      obtain ⟨v, hv⟩ := getMidPrice_some hi hb ha
      obtain ⟨w, hw⟩ := getSpread_some hi hb ha
      exact ⟨⟨v, by simp [SDK.GetMidPrice, h, hv]⟩,
        ⟨w, by simp [SDK.GetSpread, h, hw]⟩⟩
    · simp [SDK.GetBBO, h, OrderBook.GetBBO, hi]
    · intro d hd
      simp [SDK.GetDepth, h, getDepth_nonneg hi hd]
    · simp [SDK.GetTotalBidSize, h, hi]
    · simp [SDK.GetTotalAskSize, h, hi]
    · simp [SDK.GetAllBids, h, OrderBook.GetAllBids, hi]
    · simp [SDK.GetAllAsks, h, OrderBook.GetAllAsks, hi]
    · intro p
      simp [SDK.ScanAsksBelow, h, OrderBook.ScanAsksBelow, hi]
    · intro p
      simp [SDK.ScanBidsAbove, h, OrderBook.ScanBidsAbove, hi]
    · intro r
      simp [SDK.SimulateBuyAsks, h, OrderBook.SimulateBuyAsks, hi]
    · simp [SDK.GetOrderBookTimestamp, h, hi]
    · simp [SDK.GetOrderBookHash, h, hi]

/-- C3 amended witness at a concrete state: an unknown token, an
uninitialized book, and an initialized book with one empty side. -/
theorem C3_read_error_discipline_witness :
    (lookupBook [(("T1"), NewOrderBook ("T1"))] ("ZZ") = none ∧
      SDK.GetBestAsk [(("T1"), NewOrderBook ("T1"))] ("ZZ") =
        .error .errTokenNotFound) ∧
    (lookupBook [(("T1"), NewOrderBook ("T1"))] ("T1") = some (NewOrderBook ("T1")) ∧
      (NewOrderBook ("T1")).inited = false ∧
      SDK.GetBBO [(("T1"), NewOrderBook ("T1"))] ("T1") = .error .errNotInited) := by
  constructor
  · have h : lookupBook [(("T1"), NewOrderBook ("T1"))] ("ZZ") = none := by
      simp [lookupBook]
    exact ⟨h, ((C3_read_error_discipline _ _).1 h).2.1⟩
  · have h : lookupBook [(("T1"), NewOrderBook ("T1"))] ("T1") =
        some (NewOrderBook ("T1")) := by
      simp [lookupBook]
    exact ⟨h, rfl, ((C3_read_error_discipline _ _).2.1 _ h rfl).2.2.2.2.1⟩

/-! ### C10: negative depth panics through the facade -/

/-- C10. For an initialized book, `GetDepth n` with `n ≥ 0` returns the
first `n` levels of each ladder (all of them when `n` exceeds the
length); with `n < 0` the slice allocation `make([]OrderSummary, n)`
panics; the facade's `GetDepth` forwards the caller's depth unvalidated,
so the panic is reachable from the public interface. -/
theorem C10_getDepth_negative_panics :
    (∀ (ob : OrderBook) (n : ℤ), ob.inited = true → 0 ≤ n →
      ob.GetDepth n = .ok (ob.sortedBids.take n.toNat) (ob.sortedAsks.take n.toNat)) ∧
    (∀ (ob : OrderBook) (n : ℤ), ob.inited = true → n < 0 →
      ob.GetDepth n = .panicNeg) ∧
    (∀ (st : List (String × OrderBook)) (tid : String) (ob : OrderBook) (n : ℤ),
      lookupBook st tid = some ob → ob.inited = true → n < 0 →
      SDK.GetDepth st tid n = .panicNeg) := by
  refine ⟨fun ob n hi hn => getDepth_nonneg hi hn,
    fun ob n hi hn => getDepth_neg hi hn, ?_⟩
  intro st tid ob n h hi hn
  simp [SDK.GetDepth, h, getDepth_neg hi hn]

/-- C10 witness: a concrete initialized book; depth 1 succeeds, depth
`-1` panics, also through the facade. -/
theorem C10_getDepth_negative_panics_witness :
    (c2Book.inited = true ∧
      c2Book.GetDepth 1 = .ok (c2Book.sortedBids.take 1) (c2Book.sortedAsks.take 1) ∧
      c2Book.GetDepth (-1) = .panicNeg) ∧
    SDK.GetDepth [(("T"), c2Book)] ("T") (-1) = .panicNeg := by
  have hi : c2Book.inited = true := by
    simp [c2Book, NewOrderBook, OrderBook.ApplyBookSnapshot, OrderBook.ApplyPriceChange,
      buildSide, parseDec, parseUnsignedDec, breakDot, digitsToNat, digitVal]
  have hl : lookupBook [(("T"), c2Book)] ("T") = some c2Book := by
    simp [lookupBook]
  exact ⟨⟨hi, C10_getDepth_negative_panics.1 c2Book 1 hi (by norm_num),
      C10_getDepth_negative_panics.2.1 c2Book (-1) hi (by norm_num)⟩,
    C10_getDepth_negative_panics.2.2 _ _ c2Book (-1) hl hi (by norm_num)⟩

/-! ### C4: ask scan -/

def priceLE (a b : OrderSummary) : Prop := a.price ≤ b.price

lemma mem_insertAsc {z x : OrderSummary} {l : List OrderSummary}
    (h : z ∈ insertAsc x l) : z = x ∨ z ∈ l := by
  induction l with
  | nil =>
    simp [insertAsc] at h
    exact Or.inl h
  | cons y ys ih =>
    simp only [insertAsc] at h
    split at h
    · rcases List.mem_cons.mp h with h1 | h1
      · exact Or.inl h1
      · exact Or.inr h1
    · rcases List.mem_cons.mp h with h1 | h1
      · exact Or.inr (List.mem_cons.mpr (Or.inl h1))
      · rcases ih h1 with h2 | h2
        · exact Or.inl h2
        · exact Or.inr (List.mem_cons_of_mem _ h2)

lemma insertAsc_sorted {x : OrderSummary} {l : List OrderSummary}
    (h : l.Sorted priceLE) : (insertAsc x l).Sorted priceLE := by
  induction l with
  | nil => simp [insertAsc, List.Sorted]
  | cons y ys ih =>
    rw [List.sorted_cons] at h
    simp only [insertAsc]
    split
    · rename_i hlt
      rw [List.sorted_cons]
      refine ⟨?_, List.sorted_cons.mpr h⟩
      intro b hb
      rcases List.mem_cons.mp hb with h1 | h1
      · rw [h1]; exact le_of_lt hlt
      · exact le_trans (le_of_lt hlt) (h.1 b h1)
    · rename_i hge
      rw [List.sorted_cons]
      refine ⟨?_, ih h.2⟩
      intro b hb
      rcases mem_insertAsc hb with h1 | h1
      · rw [h1]
        exact not_lt.mp hge
      · exact h.1 b h1

lemma sortAsc_sorted (l : List OrderSummary) : (sortAsc l).Sorted priceLE := by
  induction l with
  | nil => simp [sortAsc, List.Sorted]
  | cons x t ih => exact insertAsc_sorted ih

lemma insertAsc_perm (x : OrderSummary) (l : List OrderSummary) :
    (insertAsc x l).Perm (x :: l) := by
  induction l with
  | nil => simp [insertAsc]
  | cons y ys ih =>
    simp only [insertAsc]
    split
    · exact List.Perm.refl _
    · exact (ih.cons y).trans (List.Perm.swap x y ys)

lemma sortAsc_perm (l : List OrderSummary) : (sortAsc l).Perm l := by
  induction l with
  | nil => simp [sortAsc]
  | cons x t ih =>
    exact (insertAsc_perm x (sortAsc t)).trans (ih.cons x)

/-- On a list sorted ascending by price, the scan's early `break` loses
nothing: the taken elements are exactly the qualifying ones. -/
lemma sorted_takeWhile_eq_filter (maxP : ℚ) :
    ∀ {l : List OrderSummary}, l.Sorted priceLE →
      l.takeWhile (fun o => decide (o.price ≤ maxP)) =
        l.filter (fun o => decide (o.price ≤ maxP)) := by
  intro l
  induction l with
  | nil => intro _; rfl
  | cons o rest ih =>
    intro h
    rw [List.sorted_cons] at h
    by_cases ho : o.price ≤ maxP
    · simp [List.takeWhile_cons, List.filter_cons, ho, ih h.2]
    · have hfil : rest.filter (fun o => decide (o.price ≤ maxP)) = [] := by
        rw [List.filter_eq_nil_iff]
        intro b hb
        simp only [decide_eq_true_eq]
        intro hble
        exact ho (le_trans (h.1 b hb) hble)
      simp [List.takeWhile_cons, List.filter_cons, ho, hfil]

/-- The scan loop takes the longest `≤ maxP` initial segment and sums
its sizes and its price·size products. -/
lemma scanLE_spec (maxP : ℚ) (l : List OrderSummary) :
    (scanLE maxP l).1 = l.takeWhile (fun o => decide (o.price ≤ maxP)) ∧
    (scanLE maxP l).2.1 = ((scanLE maxP l).1.map OrderSummary.size).sum ∧
    (scanLE maxP l).2.2 = ((scanLE maxP l).1.map (fun o => o.price * o.size)).sum := by
  induction l with
  | nil => exact ⟨rfl, rfl, rfl⟩
  | cons o rest ih =>
    by_cases ho : o.price ≤ maxP
    · have hstep : scanLE maxP (o :: rest) =
          (o :: (scanLE maxP rest).1, (scanLE maxP rest).2.1 + o.size,
            (scanLE maxP rest).2.2 + o.price * o.size) := by
        simp [scanLE, ho]
      rw [hstep]
      refine ⟨?_, ?_, ?_⟩
      · simp [List.takeWhile_cons, ho, ih.1]
      · simp only [List.map_cons, List.sum_cons]
        rw [ih.2.1]
        ring
      · simp only [List.map_cons, List.sum_cons]
        rw [ih.2.2]
        ring
    · have hstep : scanLE maxP (o :: rest) = ([], 0, 0) := by
        simp [scanLE, ho]
      rw [hstep]
      refine ⟨?_, rfl, rfl⟩
      simp [List.takeWhile_cons, ho]

/-- Concrete book for the C4/C5 scans: asks `(0.55, 10)` and
`(0.57, 20)`. -/
def c4Book : OrderBook :=
  ((NewOrderBook ("T")).ApplyBookSnapshot ⟨("T"), ("m"), ("h"), [],
    [⟨("0.55"), ("10")⟩, ⟨("0.57"), ("20")⟩]⟩ 1).2

/-- C4 counterexample: scanning the asks `(0.55,10), (0.57,20)` below
`0.58` gives `total_size = 30` and `Σ price·size = 16.9`, but shopspring
division rounds `16.9/30` at 16 fractional digits, so
`weighted_avg_price · total_size` is `16.899999999999999` and not the
claimed sum. -/
theorem C4_counterexample :
    (c4Book.ScanAsksBelow (58/100)).map ScanResult.totalSize = some 30 ∧
    (c4Book.ScanAsksBelow (58/100)).map
      (fun r => (r.orders.map (fun o => o.price * o.size)).sum) = some (169/10) ∧
    (c4Book.ScanAsksBelow (58/100)).map
      (fun r => r.avgPrice * r.totalSize) ≠ some (169/10) := by
  have hbook : c4Book.ScanAsksBelow (58/100) =
      some ⟨[⟨11/20, 10⟩, ⟨57/100, 20⟩], 30, decDiv (169/10) 30⟩ := by
    norm_num +decide [c4Book, NewOrderBook, OrderBook.ApplyBookSnapshot, buildSide,
      mapSet, parseDec, parseUnsignedDec, breakDot, digitsToNat, digitVal,
      OrderBook.ScanAsksBelow, OrderBook.sortedAsks, OrderBook.askSummaries,
      parseDecOr0, sortAsc, insertAsc, scanLE]
  rw [hbook]
  refine ⟨rfl, by norm_num, ?_⟩
  have hdiv : decDiv (169/10) 30 = 5633333333333333/10^16 := by
    norm_num [decDiv, roundHalfAway]
  intro hc
  norm_num [hdiv] at hc

/-- C4 amended: `ScanAsksBelow(max_price)` returns exactly the ask
levels with parsed price ≤ max_price, ascending by price, with
`total_size` their size sum; `weighted_avg_price` is the shopspring
16-digit rounded quotient of `Σ price·size` by `total_size` (zero when
`total_size` is not positive), so the product equation of the claim
holds only up to that rounding. -/
theorem C4_scanAsksBelow_spec :
    ∀ (ob : OrderBook) (maxP : ℚ) (r : ScanResult),
    ob.ScanAsksBelow maxP = some r →
    r.orders.Sorted priceLE ∧
    r.orders.Perm (ob.askSummaries.filter (fun o => decide (o.price ≤ maxP))) ∧
    r.totalSize = (r.orders.map OrderSummary.size).sum ∧
    r.avgPrice = (if 0 < r.totalSize then
      decDiv ((r.orders.map (fun o => o.price * o.size)).sum) r.totalSize else 0) := by
  intro ob maxP r h
  unfold OrderBook.ScanAsksBelow at h
  split at h
  · exact absurd h (by simp)
  · rw [Option.some_inj] at h
    obtain ⟨h1, h2, h3⟩ := scanLE_spec maxP ob.sortedAsks
    have horders : r.orders = (scanLE maxP ob.sortedAsks).1 := by rw [← h]
    have htotal : r.totalSize = (scanLE maxP ob.sortedAsks).2.1 := by rw [← h]
    have havg : r.avgPrice = (if 0 < (scanLE maxP ob.sortedAsks).2.1 then
        decDiv (scanLE maxP ob.sortedAsks).2.2 (scanLE maxP ob.sortedAsks).2.1 else 0) := by
      rw [← h]
    have hsorted : ob.sortedAsks.Sorted priceLE := sortAsc_sorted _
    have htw : (scanLE maxP ob.sortedAsks).1 =
        ob.sortedAsks.filter (fun o => decide (o.price ≤ maxP)) := by
      rw [h1, sorted_takeWhile_eq_filter maxP hsorted]
    refine ⟨?_, ?_, ?_, ?_⟩
    · rw [horders, htw]
      exact hsorted.filter _
    · rw [horders, htw]
      exact (sortAsc_perm ob.askSummaries).filter _
    · rw [htotal, h2, horders]
    · rw [havg, htotal, horders, h3]

/-- C4 amended witness: the concrete scan of `c4Book` below `0.58`. -/
theorem C4_scanAsksBelow_spec_witness :
    c4Book.ScanAsksBelow (58/100) =
      some ⟨[⟨11/20, 10⟩, ⟨57/100, 20⟩], 30, decDiv (169/10) 30⟩ ∧
    ([⟨11/20, 10⟩, ⟨(57:ℚ)/100, 20⟩] : List OrderSummary).Sorted priceLE ∧
    (30 : ℚ) = (([⟨11/20, 10⟩, ⟨(57:ℚ)/100, 20⟩] :
      List OrderSummary).map OrderSummary.size).sum := by
  have hbook : c4Book.ScanAsksBelow (58/100) =
      some ⟨[⟨11/20, 10⟩, ⟨57/100, 20⟩], 30, decDiv (169/10) 30⟩ := by
    norm_num +decide [c4Book, NewOrderBook, OrderBook.ApplyBookSnapshot, buildSide,
      mapSet, parseDec, parseUnsignedDec, breakDot, digitsToNat, digitVal,
      OrderBook.ScanAsksBelow, OrderBook.sortedAsks, OrderBook.askSummaries,
      parseDecOr0, sortAsc, insertAsc, scanLE]
  refine ⟨hbook, (C4_scanAsksBelow_spec _ _ _ hbook).1, ?_⟩
  have := (C4_scanAsksBelow_spec _ _ _ hbook).2.2.1
  simpa using this

/-! ### C5: simulated fill -/

lemma fillAccum_stop (required filled cost : ℚ) (l : List OrderSummary)
    (h : required ≤ filled) : fillAccum required l filled cost = ([], filled, cost) := by
  cases l with
  | nil => rfl
  | cons o rest => simp [fillAccum, h]

/-- Running invariant of the fill loop: the fill never overshoots, the
accumulators total the consumed portions, and the loop either reaches
the target exactly or consumes every level whole. -/
lemma fillAccum_spec (required : ℚ) :
    ∀ (l : List OrderSummary) (filled cost : ℚ), filled ≤ required →
    (fillAccum required l filled cost).2.1 ≤ required ∧
    (fillAccum required l filled cost).2.1 =
      filled + (((fillAccum required l filled cost).1).map OrderSummary.size).sum ∧
    (fillAccum required l filled cost).2.2 =
      cost + (((fillAccum required l filled cost).1).map (fun o => o.price * o.size)).sum ∧
    ((fillAccum required l filled cost).2.1 = required ∨
      ((fillAccum required l filled cost).1 = l ∧
        (fillAccum required l filled cost).2.1 = filled + (l.map OrderSummary.size).sum)) := by
  intro l
  induction l with
  | nil =>
    intro filled cost h
    exact ⟨h, by simp [fillAccum], by simp [fillAccum], Or.inr ⟨rfl, by simp [fillAccum]⟩⟩
  | cons o rest ih =>
    intro filled cost h
    by_cases hreq : required ≤ filled
    · have hstop := fillAccum_stop required filled cost (o :: rest) hreq
      rw [hstop]
      have heq : filled = required := le_antisymm h hreq
      exact ⟨h, by simp, by simp, Or.inl heq⟩
    · have hstep : fillAccum required (o :: rest) filled cost =
          (⟨o.price, min o.size (required - filled)⟩ ::
              (fillAccum required rest (filled + min o.size (required - filled))
                (cost + o.price * min o.size (required - filled))).1,
            (fillAccum required rest (filled + min o.size (required - filled))
                (cost + o.price * min o.size (required - filled))).2.1,
            (fillAccum required rest (filled + min o.size (required - filled))
                (cost + o.price * min o.size (required - filled))).2.2) := by
        simp [fillAccum, hreq]
      set amt := min o.size (required - filled) with hamt
      have hle : filled + amt ≤ required := by
        have := min_le_right o.size (required - filled)
        rw [← hamt] at this
        linarith
      obtain ⟨ih1, ih2, ih3, ih4⟩ := ih (filled + amt) (cost + o.price * amt) hle
      rw [hstep]
      refine ⟨ih1, ?_, ?_, ?_⟩
      · simp only [List.map_cons, List.sum_cons]
        rw [ih2]
        ring
      · simp only [List.map_cons, List.sum_cons]
        rw [ih3]
        ring
      · by_cases hsz : o.size ≤ required - filled
        · have hamt2 : amt = o.size := by rw [hamt]; exact min_eq_left hsz
          rcases ih4 with h4 | ⟨h4a, h4b⟩
          · exact Or.inl h4
          · refine Or.inr ⟨?_, ?_⟩
            · rw [h4a, hamt2]
            · rw [h4b, hamt2]
              simp only [List.map_cons, List.sum_cons]
              ring
        · have hamt2 : amt = required - filled := by
            rw [hamt]
            exact min_eq_right (le_of_lt (lt_of_not_le hsz))
          have : filled + amt = required := by rw [hamt2]; ring
          rw [this, fillAccum_stop required required
            (cost + o.price * amt) rest (le_refl required)]
          exact Or.inl rfl

/-- C5 counterexample: against the spec-modelled fill, a negative
`required_size` makes the loop stop immediately: `filled_size = 0 ≠ r`
yet `completely_filled = true`, and the exhaustion disjunct
(`filled_size < r`) fails as well. -/
theorem C5_counterexample :
    c4Book.SimulateBuyAsks (-1) = some ⟨[], 0, 0, true⟩ ∧
    (0 : ℚ) ≠ -1 ∧ ¬ ((0 : ℚ) < -1) := by
  refine ⟨?_, by norm_num, by norm_num⟩
  norm_num +decide [c4Book, NewOrderBook, OrderBook.ApplyBookSnapshot, buildSide,
    mapSet, parseDec, parseUnsignedDec, breakDot, digitsToNat, digitVal,
    OrderBook.SimulateBuyAsks, OrderBook.sortedAsks, OrderBook.askSummaries,
    parseDecOr0, sortAsc, insertAsc, fillAccum]

/-- C5 amended: for every initialized book and every
`required_size ≥ 0`, the spec-modelled `SimulateBuyAsks` either fills
exactly `r` with `completely_filled = true`, or exhausts the asks —
every level consumed whole — with `filled_size < r` and
`completely_filled = false`; the weighted average is the quotient of the
accumulated cost by the fill. -/
theorem C5_simulateBuyAsks_spec :
    ∀ (ob : OrderBook) (r : ℚ) (res : FillResult),
    0 ≤ r → ob.SimulateBuyAsks r = some res →
    res.avgPrice = ((res.orders.map (fun o => o.price * o.size)).sum) / res.filledSize ∧
    ((res.completelyFilled = true ∧ res.filledSize = r) ∨
     (res.completelyFilled = false ∧ res.filledSize < r ∧
       res.orders = ob.sortedAsks ∧
       res.filledSize = (ob.sortedAsks.map OrderSummary.size).sum)) := by
  intro ob r res hr h
  unfold OrderBook.SimulateBuyAsks at h
  split at h
  · exact absurd h (by simp)
  · rw [Option.some_inj] at h
    obtain ⟨h1, h2, h3, h4⟩ := fillAccum_spec r ob.sortedAsks 0 0 hr
    have horders : res.orders = (fillAccum r ob.sortedAsks 0 0).1 := by rw [← h]
    have hfill : res.filledSize = (fillAccum r ob.sortedAsks 0 0).2.1 := by rw [← h]
    have havg : res.avgPrice =
        (fillAccum r ob.sortedAsks 0 0).2.2 / (fillAccum r ob.sortedAsks 0 0).2.1 := by
      rw [← h]
    have hcomp : res.completelyFilled = decide (r ≤ (fillAccum r ob.sortedAsks 0 0).2.1) := by
      rw [← h]
    refine ⟨?_, ?_⟩
    · rw [havg, hfill, horders, h3]
      simp
    · by_cases hcase : r ≤ (fillAccum r ob.sortedAsks 0 0).2.1
      · refine Or.inl ⟨?_, ?_⟩
        · rw [hcomp, decide_eq_true_eq]
          exact hcase
        · rw [hfill]
          exact le_antisymm h1 hcase
      · refine Or.inr ⟨?_, ?_, ?_, ?_⟩
        · rw [hcomp]
          simp [hcase]
        · rw [hfill]
          exact lt_of_le_of_ne h1 (fun he => hcase (le_of_eq he.symm))
        · rcases h4 with h4 | ⟨h4a, _⟩
          · exact absurd (le_of_eq h4.symm) hcase
          · rw [horders, h4a]
        · rcases h4 with h4 | ⟨_, h4b⟩
          · exact absurd (le_of_eq h4.symm) hcase
          · rw [hfill, h4b]
            simp

/-- C5 amended witness: buying 30 from asks `(0.55,10), (0.57,20)`
consumes both levels exactly and fills completely. -/
theorem C5_simulateBuyAsks_spec_witness :
    (0 : ℚ) ≤ 30 ∧
    c4Book.SimulateBuyAsks 30 =
      some ⟨[⟨11/20, 10⟩, ⟨57/100, 20⟩], 30, (169/10)/30, true⟩ ∧
    ((⟨[⟨11/20, 10⟩, ⟨57/100, 20⟩], 30, (169/10)/30, true⟩ : FillResult).completelyFilled
        = true ∧
      (⟨[⟨11/20, 10⟩, ⟨57/100, 20⟩], (30:ℚ), (169/10)/30, true⟩ : FillResult).filledSize
        = 30) := by
  have hbook : c4Book.SimulateBuyAsks 30 =
      some ⟨[⟨11/20, 10⟩, ⟨57/100, 20⟩], 30, (169/10)/30, true⟩ := by
    norm_num +decide [c4Book, NewOrderBook, OrderBook.ApplyBookSnapshot, buildSide,
      mapSet, parseDec, parseUnsignedDec, breakDot, digitsToNat, digitVal,
      OrderBook.SimulateBuyAsks, OrderBook.sortedAsks, OrderBook.askSummaries,
      parseDecOr0, sortAsc, insertAsc, fillAccum, min_def]
  have hmain := C5_simulateBuyAsks_spec c4Book 30 _ (by norm_num) hbook
  refine ⟨by norm_num, hbook, ?_⟩
  rcases hmain.2 with ⟨hc, hf⟩ | ⟨hc, _⟩
  · exact ⟨hc, hf⟩
  · exact ⟨by simp at hc, by norm_num⟩

/-! ### C6: the manager (`manager.go`)

The manager owns the token → replica map and the per-token pending
queues. Both `handleBookMessage` and `handlePriceChangeMessage` parse
the envelope timestamp string with `strconv.ParseInt` and drop the
frame on failure; the handlers below receive the parsed value. -/

def assocGet {α : Type} : List (String × α) → String → Option α
  | [], _ => none
  | (k', v) :: rest, k => if k' = k then some v else assocGet rest k

def assocSet {α : Type} (m : List (String × α)) (k : String) (v : α) :
    List (String × α) :=
  match m with
  | [] => [(k, v)]
  | (k', v') :: rest => if k' = k then (k, v) :: rest else (k', v') :: assocSet rest k v

lemma assocGet_assocSet_self {α : Type} (m : List (String × α)) (k : String) (v : α) :
    assocGet (assocSet m k v) k = some v := by
  induction m with
  | nil => simp [assocGet, assocSet]
  | cons q rest ih =>
    obtain ⟨k', v'⟩ := q
    simp only [assocSet]
    by_cases hk : k' = k
    · rw [if_pos hk]
      simp [assocGet]
    · rw [if_neg hk]
      simp only [assocGet, if_neg hk]
      exact ih

/-- `pendingPriceChange`: a buffered delta plus its envelope arrival
timestamp. -/
structure PendingPC where
  change : PriceChange
  timestamp : ℤ

/-- `PriceChangeMessage` (post timestamp parse). -/
structure PriceChangeMessage where
  market : String
  priceChanges : List PriceChange

structure ManagerSt where
  books : List (String × OrderBook)
  pending : List (String × List PendingPC)

/-- The replay loop inside `handleBookMessage`: every buffered delta
with `p.timestamp >= ts` is applied in order, the others are skipped. -/
def replayPending (ob : OrderBook) (snapTs : ℤ) : List PendingPC → OrderBook
  | [] => ob
  | p :: rest =>
    if snapTs ≤ p.timestamp then
      replayPending (ob.ApplyPriceChange p.change p.timestamp).2 snapTs rest
    else replayPending ob snapTs rest

/-- `handleBookMessage`: unknown tokens are ignored; a rejected
snapshot leaves everything untouched; an accepted snapshot replays the
qualifying buffered deltas and empties the queue unconditionally. -/
def handleBookMessage (m : ManagerSt) (msg : BookMessage) (ts : ℤ) : ManagerSt :=
  match assocGet m.books msg.assetID with
  | none => m
  | some ob =>
    let r := ob.ApplyBookSnapshot msg ts
    if r.1 then
      { books := assocSet m.books msg.assetID
          (replayPending r.2 ts ((assocGet m.pending msg.assetID).getD [])),
        pending := assocSet m.pending msg.assetID [] }
    else m

/-- One entry of the `handlePriceChangeMessage` loop: unknown token →
ignore; uninitialized book → buffer `(change, ts)`; otherwise apply. -/
def processPriceChange (m : ManagerSt) (ch : PriceChange) (ts : ℤ) : ManagerSt :=
  match assocGet m.books ch.assetID with
  | none => m
  | some ob =>
    if ob.inited = false then
      let q := ((assocGet m.pending ch.assetID).getD []) ++ [⟨ch, ts⟩]
      { m with pending := assocSet m.pending ch.assetID q }
    else
      { m with books := assocSet m.books ch.assetID (ob.ApplyPriceChange ch ts).2 }

/-- `handlePriceChangeMessage`: all entries of the envelope share the
envelope's timestamp. -/
def handlePriceChangeMessage (m : ManagerSt) (msg : PriceChangeMessage) (ts : ℤ) :
    ManagerSt :=
  msg.priceChanges.foldl (fun acc ch => processPriceChange acc ch ts) m

/-- The conditional replay loop equals a fold over the `≥ ts` filter of
the queue. -/
lemma replayPending_eq_foldl (snapTs : ℤ) :
    ∀ (l : List PendingPC) (ob : OrderBook),
    replayPending ob snapTs l =
      (l.filter (fun p => decide (snapTs ≤ p.timestamp))).foldl
        (fun b p => (b.ApplyPriceChange p.change p.timestamp).2) ob := by
  intro l
  induction l with
  | nil => intro ob; rfl
  | cons p rest ih =>
    intro ob
    by_cases hp : snapTs ≤ p.timestamp
    · simp only [replayPending, if_pos hp, List.filter_cons, hp, decide_eq_true_eq,
        if_true, List.foldl_cons]
      rw [ih]
    · simp only [replayPending, if_neg hp, List.filter_cons]
      rw [ih]
      simp [hp]

/-- C6. For a token whose snapshot is accepted, the manager replays
from the pending queue exactly the buffered deltas whose arrival
timestamp is ≥ the snapshot's, in order, onto the freshly snapshotted
book, and empties the queue; a delta for an uninitialized book is
appended to the queue and the books are untouched. -/
theorem C6_snapshot_drains_pending :
    (∀ (m : ManagerSt) (msg : BookMessage) (ts : ℤ) (ob : OrderBook),
      assocGet m.books msg.assetID = some ob →
      (ob.ApplyBookSnapshot msg ts).1 = true →
      assocGet (handleBookMessage m msg ts).books msg.assetID =
        some ((((assocGet m.pending msg.assetID).getD []).filter
            (fun p => decide (ts ≤ p.timestamp))).foldl
          (fun b p => (b.ApplyPriceChange p.change p.timestamp).2)
          (ob.ApplyBookSnapshot msg ts).2) ∧
      assocGet (handleBookMessage m msg ts).pending msg.assetID = some []) ∧
    (∀ (m : ManagerSt) (ch : PriceChange) (ts : ℤ) (ob : OrderBook),
      assocGet m.books ch.assetID = some ob →
      ob.inited = false →
      (processPriceChange m ch ts).books = m.books ∧
      assocGet (processPriceChange m ch ts).pending ch.assetID =
        some (((assocGet m.pending ch.assetID).getD []) ++ [⟨ch, ts⟩])) := by
  constructor
  · intro m msg ts ob hget htrue
    have hunfold : handleBookMessage m msg ts =
        { books := (assocSet m.books msg.assetID
            (replayPending (ob.ApplyBookSnapshot msg ts).2 ts
              ((assocGet m.pending msg.assetID).getD []))),
          pending := assocSet m.pending msg.assetID [] } := by
      simp [handleBookMessage, hget, htrue]
    rw [hunfold]
    constructor
    · simp only [assocGet_assocSet_self]
      rw [replayPending_eq_foldl]
    · exact assocGet_assocSet_self _ _ _
  · intro m ch ts ob hget hinit
    have hunfold : processPriceChange m ch ts =
        { m with pending := (assocSet m.pending ch.assetID
            (((assocGet m.pending ch.assetID).getD []) ++ [⟨ch, ts⟩])) } := by
      simp [processPriceChange, hget, hinit]
    rw [hunfold]
    exact ⟨rfl, assocGet_assocSet_self _ _ _⟩

/-- C6 witness: a pending queue holding deltas stamped 900 and 1010; a
snapshot at 1000 replays only the 1010 delta and empties the queue, and
a delta against the uninitialized book is buffered. -/
theorem C6_snapshot_drains_pending_witness :
    (assocGet [(("T"), NewOrderBook ("T"))] ("T") = some (NewOrderBook ("T")) ∧
      ((NewOrderBook ("T")).ApplyBookSnapshot ⟨("T"), ("m"), ("h"), [], []⟩ 1000).1
        = true ∧
      assocGet (handleBookMessage
          ⟨[(("T"), NewOrderBook ("T"))],
            [(("T"), [⟨⟨("T"), ("0.5"), ("7"), ("BUY"), ("h1")⟩, 900⟩,
              ⟨⟨("T"), ("0.6"), ("8"), ("BUY"), ("h2")⟩, 1010⟩])]⟩
          ⟨("T"), ("m"), ("h"), [], []⟩ 1000).pending ("T") = some []) ∧
    (processPriceChange ⟨[(("T"), NewOrderBook ("T"))], [(("T"), [])]⟩
        ⟨("T"), ("0.5"), ("7"), ("BUY"), ("h1")⟩ 900).books =
      [(("T"), NewOrderBook ("T"))] := by
  have hget : assocGet [(("T"), NewOrderBook ("T"))] ("T") =
      some (NewOrderBook ("T")) := by simp [assocGet]
  have htrue : ((NewOrderBook ("T")).ApplyBookSnapshot
      ⟨("T"), ("m"), ("h"), [], []⟩ 1000).1 = true := by
    norm_num [NewOrderBook, OrderBook.ApplyBookSnapshot]
  refine ⟨⟨hget, htrue, ?_⟩, ?_⟩
  · exact (C6_snapshot_drains_pending.1
      ⟨[(("T"), NewOrderBook ("T"))],
        [(("T"), [⟨⟨("T"), ("0.5"), ("7"), ("BUY"), ("h1")⟩, 900⟩,
          ⟨⟨("T"), ("0.6"), ("8"), ("BUY"), ("h2")⟩, 1010⟩])]⟩
      ⟨("T"), ("m"), ("h"), [], []⟩ 1000 (NewOrderBook ("T")) hget htrue).2
  · exact (C6_snapshot_drains_pending.2
      ⟨[(("T"), NewOrderBook ("T"))], [(("T"), [])]⟩
      ⟨("T"), ("0.5"), ("7"), ("BUY"), ("h1")⟩ 900 (NewOrderBook ("T")) hget rfl).1

/-! ### C7: reconnect backoff (`ws_client.go calculateBackoff`)

`time.Duration` is int64 nanoseconds: every product and sum wraps
(`wrap64`), and the non-constant shift `1 << uint(attempts-1)` yields 0
for shift counts ≥ 64. The jitter line converts the float
`rand.Float64()*0.4 - 0.2` — a value in `(-1, 1)` — to `time.Duration`,
an integer truncation toward zero, before multiplying, so the computed
jitter is always exactly zero. The random draw is modelled as an exact
rational `r ∈ [0, 1)`; the float rounding of `0.4`/`0.2` cannot move
the product out of `(-1, 1)`, so the truncation to 0 is exact. -/

def wrap64 (x : ℤ) : ℤ := (x + 2 ^ 63) % 2 ^ 64 - 2 ^ 63

/-- `time.Duration(1) << n` on int64. -/
def goShl1 (n : ℕ) : ℤ := if 64 ≤ n then 0 else wrap64 (2 ^ n)

/-- Go float-to-integer conversion truncates toward zero. -/
def truncToInt (q : ℚ) : ℤ := if 0 ≤ q then ⌊q⌋ else -⌊-q⌋

def calculateBackoff (minMs maxMs : ℤ) (attempts : ℕ) (r : ℚ) : ℤ :=
  let minInterval := wrap64 (minMs * 1000000)
  let maxInterval := wrap64 (maxMs * 1000000)
  let backoff0 := wrap64 (minInterval * goShl1 (attempts - 1))
  let backoff1 := if backoff0 > maxInterval then maxInterval else backoff0
  let jitter := wrap64 (truncToInt (r * (2/5) - 1/5) * backoff1)
  let backoff2 := wrap64 (backoff1 + jitter)
  if backoff2 < minInterval then minInterval else backoff2

lemma wrap64_eq {x : ℤ} (h1 : -(2 ^ 63) ≤ x) (h2 : x < 2 ^ 63) : wrap64 x = x := by
  unfold wrap64
  have e1 : (2 : ℤ) ^ 63 = 9223372036854775808 := by norm_num
  have e2 : (2 : ℤ) ^ 64 = 18446744073709551616 := by norm_num
  rw [e1, e2] at *
  omega

lemma wrap64_range (x : ℤ) : -(2 ^ 63) ≤ wrap64 x ∧ wrap64 x < 2 ^ 63 := by
  unfold wrap64
  have e1 : (2 : ℤ) ^ 63 = 9223372036854775808 := by norm_num
  have e2 : (2 : ℤ) ^ 64 = 18446744073709551616 := by norm_num
  rw [e1, e2]
  constructor <;> omega

lemma truncToInt_jitter {r : ℚ} (h0 : 0 ≤ r) (h1 : r < 1) :
    truncToInt (r * (2/5) - 1/5) = 0 := by
  unfold truncToInt
  split
  · rename_i hpos
    rw [Int.floor_eq_zero_iff]
    constructor
    · exact hpos
    · nlinarith
  · rename_i hneg
    have hfz : ⌊-(r * (2/5) - 1/5)⌋ = 0 := by
      rw [Int.floor_eq_zero_iff]
      constructor
      · nlinarith [not_le.mp hneg]
      · nlinarith
    rw [hfz]
    ring

/-- C7. With a sane configuration (`0 ≤ reconnect_min ≤ reconnect_max`,
both below the int64 nanosecond range), every computed backoff lies in
`[reconnect_min, reconnect_max]` (in nanoseconds) for every attempt
number ≥ 1 and every jitter draw `r ∈ [0, 1)` — the jitter term is
truncated to zero before it is multiplied, so the cap and floor are
what bound the result. -/
theorem C7_backoff_bounds :
    ∀ (minMs maxMs : ℤ) (attempts : ℕ) (r : ℚ),
    1 ≤ attempts → 0 ≤ minMs → minMs ≤ maxMs → maxMs ≤ 10 ^ 12 →
    0 ≤ r → r < 1 →
    minMs * 1000000 ≤ calculateBackoff minMs maxMs attempts r ∧
    calculateBackoff minMs maxMs attempts r ≤ maxMs * 1000000 := by
  intro minMs maxMs attempts r _ hmin hminmax hmax hr0 hr1
  have hminR : wrap64 (minMs * 1000000) = minMs * 1000000 := by
    refine wrap64_eq (by nlinarith) (by nlinarith)
  have hmaxR : wrap64 (maxMs * 1000000) = maxMs * 1000000 := by
    refine wrap64_eq (by nlinarith) (by nlinarith)
  unfold calculateBackoff
  rw [hminR, hmaxR, truncToInt_jitter hr0 hr1]
  simp only [zero_mul]
  have hz : wrap64 0 = 0 := by
    unfold wrap64
    norm_num
  rw [hz]
  set b0 := wrap64 (minMs * 1000000 * goShl1 (attempts - 1)) with hb0
  have hb0r := wrap64_range (minMs * 1000000 * goShl1 (attempts - 1))
  rw [← hb0] at hb0r
  set b1 := if b0 > maxMs * 1000000 then maxMs * 1000000 else b0 with hb1
  have hb1le : b1 ≤ maxMs * 1000000 := by
    rw [hb1]
    split <;> omega
  have hmax0 : 0 ≤ maxMs := le_trans hmin hminmax
  have hb1r : -(2 ^ 63) ≤ b1 ∧ b1 < 2 ^ 63 := by
    rw [hb1]
    split
    · constructor
      · nlinarith
      · nlinarith
    · exact hb0r
  have hb2 : wrap64 (b1 + 0) = b1 := by
    rw [add_zero]
    exact wrap64_eq hb1r.1 hb1r.2
  rw [hb2]
  constructor
  · split <;> omega
  · split
    · nlinarith
    · omega

/-- C7 witness: defaults `min = 1000ms`, `max = 30000ms`, attempt 6,
jitter draw `r = 1/2`. -/
theorem C7_backoff_bounds_witness :
    (1 ≤ 6 ∧ (0 : ℤ) ≤ 1000 ∧ (1000 : ℤ) ≤ 30000 ∧ (30000 : ℤ) ≤ 10 ^ 12 ∧
      (0 : ℚ) ≤ 1/2 ∧ (1/2 : ℚ) < 1) ∧
    1000 * 1000000 ≤ calculateBackoff 1000 30000 6 (1/2) ∧
    calculateBackoff 1000 30000 6 (1/2) ≤ 30000 * 1000000 := by
  refine ⟨⟨by norm_num, by norm_num, by norm_num, by norm_num, by norm_num, by norm_num⟩, ?_⟩
  exact C7_backoff_bounds 1000 30000 6 (1/2) (by norm_num) (by norm_num)
    (by norm_num) (by norm_num) (by norm_num) (by norm_num)

/-! ### C8: pool token accounting (`ws_pool.go` + `ws_client.go`)

`WSClient.AddTokens` appends the tokens to its list *before* enqueueing
the dynamic subscribe; if the enqueue fails the error is returned but
the list keeps the tokens. `addToExistingClients` treats the failed
tokens as `remaining`, and `createNewClients` then routes them to a
fresh session — so the same token ends up in two sessions' lists while
the routing map holds one entry. New-session `Connect` is modelled as
succeeding (its failure path aborts the subscribe and is not needed for
the claim). -/

structure PoolClient where
  tokens : List String
  active : Bool
deriving DecidableEq

/-- `WSClient.AddTokens`: state check, append, then send (`sendOk` says
whether the dynamic-subscribe enqueue succeeds). -/
def addTokensClient (c : PoolClient) (ts : List String) (sendOk : Bool) :
    PoolClient × Bool :=
  if c.active = false then (c, false)
  else ({ c with tokens := c.tokens ++ ts }, sendOk)

structure PoolSt where
  clients : List PoolClient
  routing : List (String × ℕ)
deriving DecidableEq

/-- The `addToExistingClients` loop over the session list (sessions
identified by their list index): capacity check, `AddTokens`, routing
update on success, failed chunk kept in `remaining`. -/
def addLoop (maxPer : ℤ) (sendOk : ℕ → Bool) :
    List PoolClient → ℕ → List String → List (String × ℕ) →
    List PoolClient × List (String × ℕ) × List String
  | [], _, tokensToAdd, routing => ([], routing, tokensToAdd)
  | c :: cs, i, tokensToAdd, routing =>
    if tokensToAdd.isEmpty then (c :: cs, routing, [])
    else
      let avail := maxPer - (c.tokens.length : ℤ)
      if avail ≤ 0 then
        let (cs', r', rem) := addLoop maxPer sendOk cs (i + 1) tokensToAdd routing
        (c :: cs', r', rem)
      else
        let addCount := min avail (tokensToAdd.length : ℤ)
        let forClient := tokensToAdd.take addCount.toNat
        let res := addTokensClient c forClient (sendOk i)
        let routing' := if res.2 then
            forClient.foldl (fun rt t => assocSet rt t i) routing
          else routing
        let rest := tokensToAdd.drop addCount.toNat
        let (cs', r'', rem) := addLoop maxPer sendOk cs (i + 1) rest routing'
        (res.1 :: cs', r'', if res.2 then rem else forClient ++ rem)

/-- `groupTokens`, chunking by `MaxTokensPerConn` (fuelled by the list
length; the Go loop does not terminate for a non-positive bound, which
no caller uses). -/
def chunkFuel (k : ℕ) : ℕ → List String → List (List String)
  | 0, l => if l.isEmpty then [] else [l]
  | n + 1, l => if l.isEmpty then [] else l.take k :: chunkFuel k n (l.drop k)

def goGroupTokens (maxPer : ℤ) (l : List String) : List (List String) :=
  if maxPer ≤ 0 then [] else chunkFuel maxPer.toNat l.length l

/-- `createNewClients`: one fresh active session per group, routed by
its index at creation time. -/
def createNewClients (maxPer : ℤ) (clients : List PoolClient)
    (routing : List (String × ℕ)) (remaining : List String) :
    List PoolClient × List (String × ℕ) :=
  (goGroupTokens maxPer remaining).foldl
    (fun acc g =>
      (acc.1 ++ [⟨g, true⟩], g.foldl (fun rt t => assocSet rt t acc.1.length) acc.2))
    (clients, routing)

/-- `WSPool.Subscribe` for an already-connected pool: filter the
already-routed tokens, try existing sessions, open new sessions for the
remainder. -/
def poolSubscribe (st : PoolSt) (maxPer : ℤ) (tokenIDs : List String)
    (sendOk : ℕ → Bool) : PoolSt :=
  let newTokens := tokenIDs.filter (fun t => (assocGet st.routing t).isNone)
  if newTokens.isEmpty then st
  else
    let (clients', routing', remaining) := addLoop maxPer sendOk st.clients 0 newTokens st.routing
    let (clients'', routing'') := createNewClients maxPer clients' routing' remaining
    ⟨clients'', routing''⟩

/-- The pool after subscribing `t1` to one idle active session whose
dynamic-subscribe send fails. -/
def c8Pool : PoolSt := poolSubscribe ⟨[⟨[], true⟩], []⟩ 50 [("t1")] (fun _ => false)

/-- C8: after a `Subscribe` in which the existing session's `AddTokens`
send fails, the token sits in that session's list *and* in the fresh
session's list, while the routing map has a single entry — the session
token multiset does not match the routing keys. -/
theorem C8_token_routing_leak :
    c8Pool.clients = [⟨[("t1")], true⟩, ⟨[("t1")], true⟩] ∧
    c8Pool.routing = [(("t1"), 1)] ∧
    (c8Pool.clients.map (fun c => c.tokens.length)).sum = 2 ∧
    c8Pool.routing.length = 1 := by
  have heval : c8Pool = ⟨[⟨[("t1")], true⟩, ⟨[("t1")], true⟩], [(("t1"), 1)]⟩ := by
    norm_num +decide [c8Pool, poolSubscribe, addLoop, addTokensClient, assocGet,
      assocSet, createNewClients, goGroupTokens, chunkFuel, min_def]
  rw [heval]
  exact ⟨rfl, rfl, rfl, rfl⟩

/-! ### C9: frame branch selection and dispatch (`manager.go`) -/

inductive MsgBranch
  | arrayBranch
  | singleBranch
deriving DecidableEq

/-- `handleMessage` picks the array branch iff the frame is non-empty
and its FIRST byte is `'['` (`len(data) > 0 && data[0] == '['`). -/
def handleMessageBranch (data : List Char) : MsgBranch :=
  match data with
  | c :: _ => if c = '[' then .arrayBranch else .singleBranch
  | [] => .singleBranch

def isJSONWhitespace (c : Char) : Bool :=
  c = ' ' || c = '\t' || c = '\n' || c = '\r'

def firstNonWS : List Char → Option Char
  | [] => none
  | c :: rest => if isJSONWhitespace c then firstNonWS rest else some c

inductive DispatchTarget
  | bookHandler
  | priceChangeHandler
  | ignored
deriving DecidableEq

/-- `handleSingleMessage` switches on `event_type`: `book` and
`price_change` go to their handlers, `tick_size_change`,
`last_trade_price` and anything else are ignored. -/
def dispatchTarget (eventType : String) : DispatchTarget :=
  if eventType = "book" then .bookHandler
  else if eventType = "price_change" then .priceChangeHandler
  else .ignored

/-- C9 counterexample: a frame whose first byte is a space but whose
first non-whitespace byte is `'['` takes the single-object branch, so a
whitespace-prefixed JSON array is not processed as a batch (the
single-object parse of an array fails and the frame is dropped). -/
theorem C9_counterexample :
    handleMessageBranch ((" []").toList) = .singleBranch ∧
    firstNonWS ((" []").toList) = some '[' := by
  constructor
  · simp [handleMessageBranch]
  · simp [firstNonWS, isJSONWhitespace]

/-- C9 amended: the manager picks the array branch exactly when the
frame's FIRST byte is `'['` (whitespace is not skipped), and each
decoded object is dispatched by `event_type`: `book` to the snapshot
handler, `price_change` to the delta handler, everything else ignored. -/
theorem C9_branch_first_byte :
    (∀ (data : List Char), handleMessageBranch data = .arrayBranch ↔
      data.head? = some '[') ∧
    dispatchTarget ("book") = .bookHandler ∧
    dispatchTarget ("price_change") = .priceChangeHandler ∧
    (∀ et, et ≠ "book" → et ≠ "price_change" → dispatchTarget et = .ignored) := by
  refine ⟨?_, rfl, by simp [dispatchTarget], ?_⟩
  · intro data
    cases data with
    | nil => simp [handleMessageBranch]
    | cons c rest =>
      by_cases hc : c = '['
      · simp [handleMessageBranch, hc]
      · simp [handleMessageBranch, hc]
  · intro et h1 h2
    simp [dispatchTarget, h1, h2]

/-- C9 amended witness: the branch test on a concrete array frame and
the dispatch of `tick_size_change`. -/
theorem C9_branch_first_byte_witness :
    (handleMessageBranch (("[]").toList) = .arrayBranch ↔
      (("[]").toList).head? = some '[') ∧
    dispatchTarget ("tick_size_change") = .ignored := by
  refine ⟨C9_branch_first_byte.1 _, ?_⟩
  exact C9_branch_first_byte.2.2.2 ("tick_size_change") (by decide) (by decide)

end Polymarket
